import Mathlib

/-!
Verification development for the LogSmith repository (two Python scripts:
`send_issue_email.py` and `get_issues.py`).

Strings are modelled as `List Char` (Python `str`).  The filesystem visible to
`find_latest_test_result` is modelled as a `DirState`: whether the output
directory path exists, plus the directory listing (`os.listdir`).  Python's
`datetime` values are modelled by their ordinal key (a strictly monotone
encoding of the `(year, month, day, hour, minute, second)` tuple; `datetime`
comparison is exactly lexicographic comparison of that tuple, so the encoding
is order-faithful).  All definitions are executable and kernel-reducible.
-/

set_option maxRecDepth 4096

namespace LogSmith

/-- Python `str(i)` for an `int`: minus sign for negatives, decimal digits. -/
def intRepr (i : Int) : List Char :=
  if i < 0 then '-' :: (Nat.repr i.natAbs).data else (Nat.repr i.toNat).data

/-! ### datetime.strptime model (format `%m-%d-%Y-%H-%M-%S`) -/

def digitVal (c : Char) : Nat := c.toNat - 48

def isLeapYear (y : Nat) : Bool :=
  y % 4 == 0 && (y % 100 != 0 || y % 400 == 0)

def daysInMonth (y m : Nat) : Nat :=
  if m = 2 then (if isLeapYear y then 29 else 28)
  else if m = 4 ∨ m = 6 ∨ m = 9 ∨ m = 11 then 30
  else 31

/-- Order-faithful encoding of a calendar timestamp; each factor strictly
exceeds the range of the field to its right, so comparison of keys equals
lexicographic (= chronological, = Python `datetime`) comparison. -/
def dtKey (y mo d h mi s : Nat) : Nat :=
  ((((y * 13 + mo) * 32 + d) * 24 + h) * 60 + mi) * 60 + s

/-- Python `datetime.strptime(g, '%m-%d-%Y-%H-%M-%S')`, returning the key of the
resulting datetime, or `none` where Python raises `ValueError` (wrong shape,
non-digits, or out-of-range field values; the `datetime` constructor enforces
year ≥ 1, month 1..12, day 1..days-in-month with leap years, hour ≤ 23,
minute ≤ 59, second ≤ 59). -/
def strptime (g : List Char) : Option Nat :=
  match g with
  | [m1, m2, '-', d1, d2, '-', y1, y2, y3, y4, '-', h1, h2, '-', n1, n2, '-', s1, s2] =>
    if m1.isDigit && m2.isDigit && d1.isDigit && d2.isDigit &&
       y1.isDigit && y2.isDigit && y3.isDigit && y4.isDigit &&
       h1.isDigit && h2.isDigit && n1.isDigit && n2.isDigit &&
       s1.isDigit && s2.isDigit then
      let mo := digitVal m1 * 10 + digitVal m2
      let d := digitVal d1 * 10 + digitVal d2
      let y := digitVal y1 * 1000 + digitVal y2 * 100 + digitVal y3 * 10 + digitVal y4
      let h := digitVal h1 * 10 + digitVal h2
      let mi := digitVal n1 * 10 + digitVal n2
      let s := digitVal s1 * 10 + digitVal s2
      if 1 ≤ y ∧ 1 ≤ mo ∧ mo ≤ 12 ∧ 1 ≤ d ∧ d ≤ daysInMonth y mo ∧
         h ≤ 23 ∧ mi ≤ 59 ∧ s ≤ 59 then
        some (dtKey y mo d h mi s)
      else none
    else none
  | _ => none

/-! ### The regex `Test-Results-GH{issue_number}-(\d{2}-\d{2}-\d{4}-\d{2}-\d{2}-\d{2})\.html?$`

`re.match` anchors at the start; the trailing `$` matches at the end of the
string or just before a single newline at the end of the string, which is
modelled by stripping one trailing newline before the strict match. -/

/-- Shape of the captured group: `\d{2}-\d{2}-\d{4}-\d{2}-\d{2}-\d{2}`. -/
def isTsShape : List Char → Bool
  | [m1, m2, '-', d1, d2, '-', y1, y2, y3, y4, '-', h1, h2, '-', n1, n2, '-', s1, s2] =>
    m1.isDigit && m2.isDigit && d1.isDigit && d2.isDigit &&
    y1.isDigit && y2.isDigit && y3.isDigit && y4.isDigit &&
    h1.isDigit && h2.isDigit && n1.isDigit && n2.isDigit &&
    s1.isDigit && s2.isDigit
  | _ => false

/-- Strip a literal from the front of a string, or fail. -/
def dropPre : List Char → List Char → Option (List Char)
  | [], s => some s
  | _ :: _, [] => none
  | p :: ps, c :: cs => if c = p then dropPre ps cs else none

/-- The regex match against a string with a strict end anchor (all fixed-width
pieces, so the match is deterministic).  Returns the captured group. -/
def re_core (issue : Int) (s : List Char) : Option (List Char) :=
  match dropPre ("Test-Results-GH".data ++ intRepr issue ++ ['-']) s with
  | none => none
  | some rest =>
    if isTsShape (rest.take 19) ∧
       (rest.drop 19 = ".htm".data ∨ rest.drop 19 = ".html".data) then
      some (rest.take 19)
    else none

def strip_trailing_newline (s : List Char) : List Char :=
  if s.getLast? = some '\n' then s.dropLast else s

/-- The call `pattern.match(filename)` (with Python's `$` end-of-string-or-before-final-
newline semantics; the pattern itself can never match a newline character). -/
def re_match (issue : Int) (fn : List Char) : Option (List Char) :=
  re_core issue (strip_trailing_newline fn)

/-- Modelled from the spec: the documented fixed artifact filename pattern
`Test-Results-GH<issue-number>-<MM-DD-YYYY-HH-MM-SS>.htm` or `.html`
(case-sensitive prefix, fixed field widths), matching the whole filename with
no trailing-newline allowance.  Used to compare the spec's pattern with the
code's `$`-anchored regex. -/
def spec_matches_name (issue : Int) (fn : List Char) : Bool :=
  (re_core issue fn).isSome

/-! ### find_latest_test_result -/

/-- POSIX `os.path.join`, two arguments. -/
def os_path_join (a b : List Char) : List Char :=
  if b.head? = some '/' then b
  else if a = [] then a ++ b
  else if a.getLast? = some '/' then a ++ b
  else a ++ '/' :: b

/-- State of the output directory: whether `os.path.exists` holds for its path,
and the `os.listdir` listing. -/
structure DirState where
  dirExists : Bool
  listing : List (List Char)

/-- One iteration of the collection loop: pattern-match the filename, parse the
timestamp (a `ValueError` is `continue`, i.e. `none`), and pair the joined path
with the timestamp. -/
def fileEntry (issue : Int) (output_dir fn : List Char) : Option (List Char × Nat) :=
  match re_match issue fn with
  | none => none
  | some g =>
    match strptime g with
    | none => none
    | some ts => some (os_path_join output_dir fn, ts)

/-- The `matching_files` list built by the loop, in directory enumeration
order. -/
def matchingFiles (issue : Int) (output_dir : List Char) (listing : List (List Char)) :
    List (List Char × Nat) :=
  listing.filterMap (fileEntry issue output_dir)

/-- Insertion step of a stable descending-by-timestamp sort.  A stable sort's
output is determined by the comparator alone, so this models Python's
`list.sort(key=lambda x: x[1], reverse=True)` (Timsort is stable, and
`reverse=True` preserves the original relative order of equal keys). -/
def insertRev (x : List Char × Nat) : List (List Char × Nat) → List (List Char × Nat)
  | [] => [x]
  | y :: ys => if y.2 ≤ x.2 then x :: y :: ys else y :: insertRev x ys

def sortRev : List (List Char × Nat) → List (List Char × Nat)
  | [] => []
  | x :: xs => insertRev x (sortRev xs)

def warn_dir (output_dir : List Char) : List Char :=
  "Warning: ".data ++ output_dir ++ " directory not found.".data

def warn_none (issue : Int) : List Char :=
  "Warning: No test result files found for issue #".data ++ intRepr issue

/-- Model of `find_latest_test_result(issue_number, output_dir)`: first component is the
returned value (`None` or the selected path), second component is the list of
lines printed on stdout. -/
def find_latest_test_result (issue : Int) (output_dir : List Char) (d : DirState) :
    Option (List Char) × List (List Char) :=
  if d.dirExists = false then (none, [warn_dir output_dir])
  else if matchingFiles issue output_dir d.listing = [] then (none, [warn_none issue])
  else ((sortRev (matchingFiles issue output_dir d.listing)).head?.map Prod.fst, [])

/-- First element of a list attaining the maximal key (the head of a stable
descending sort). -/
def firstMax : List (List Char × Nat) → Option (List Char × Nat)
  | [] => none
  | x :: xs =>
    match firstMax xs with
    | none => some x
    | some m => if m.2 ≤ x.2 then some x else some m

def maxKey : List (List Char × Nat) → Nat
  | [] => 0
  | x :: xs => max x.2 (maxKey xs)

/-! ### format_issue_html -/

/-- A GitHub issue record as returned by
`gh issue view --json number,title,body,url,state,labels,assignees,createdAt,updatedAt`.
`labels` holds the label names, `assignees` the logins.  `body` is `none` when
the key is absent (`issue.get('body', default)`). -/
structure Issue where
  number : Nat
  title : List Char
  body : Option (List Char)
  url : List Char
  state : List Char
  labels : List (List Char)
  assignees : List (List Char)
  createdAt : List Char
  updatedAt : List Char

/-- Python `sep.join(xs)`. -/
def joinSep (sep : List Char) (xs : List (List Char)) : List Char :=
  (List.intersperse sep xs).flatten

/-- The f-string conditional
`f'<div class="info"><span class="label">Labels:</span> {labels}</div>' if labels else ''`;
the condition is truthiness of the joined string. -/
def labelsDiv (joined : List Char) : List Char :=
  if joined = [] then []
  else "<div class=\"info\"><span class=\"label\">Labels:</span> ".data ++ joined ++ "</div>".data

def assigneesDiv (joined : List Char) : List Char :=
  if joined = [] then []
  else "<div class=\"info\"><span class=\"label\">Assignees:</span> ".data ++ joined ++ "</div>".data

def default_body : List Char := "No description provided.".data

/-! Literal fragments of the HTML template f-string, in order, split at the
interpolation points (and around the `<pre>`/`</pre>`/link markers). -/

def tplA1 : List Char := "\n    <html>\n    <head>\n        <style>\n".data

def tplA2 : List Char :=
  "            body \x7b font-family: Arial, sans-serif; margin: 20px; \x7d\n".data

def tplA3 : List Char :=
  "            h2 \x7b color: #333; \x7d\n            .info \x7b margin: 10px 0; \x7d\n".data

def tplA4 : List Char := "            .label \x7b font-weight: bold; \x7d\n".data

def tplA5 : List Char :=
  "            .body \x7b\n                background-color: #f5f5f5;\n                padding: 15px;\n".data

def tplA6 : List Char :=
  "                border-left: 4px solid #0969da;\n                margin: 20px 0;\n            \x7d\n".data

def tplA7 : List Char :=
  "            .link \x7b\n                display: inline-block;\n                margin: 20px 0;\n".data

def tplA8 : List Char :=
  "                padding: 10px 20px;\n                background-color: #0969da;\n".data

def tplA9 : List Char :=
  "                color: white;\n                text-decoration: none;\n                border-radius: 5px;\n            \x7d\n".data

def tplA10 : List Char :=
  "        </style>\n    </head>\n    <body>\n        <h2>Issue #".data

/-- Template text from the start of the f-string up to the first
interpolation (`{issue['number']}`), assembled from its lines. -/
def tplA : List Char :=
  tplA1 ++ (tplA2 ++ (tplA3 ++ (tplA4 ++ (tplA5 ++ (tplA6 ++ (tplA7 ++ (tplA8 ++
    (tplA9 ++ tplA10))))))))

def tplB : List Char := ": ".data

def tplC : List Char :=
  "</h2>\n\n        <div class=\"info\">\n            <span class=\"label\">Status:</span> ".data

def tplD1 : List Char := "\n        </div>\n\n        ".data

def tplD2 : List Char := "\n\n        ".data

def tplD3 : List Char :=
  "\n\n        <div class=\"info\">\n            <span class=\"label\">Created:</span> ".data

def tplE : List Char :=
  "\n        </div>\n\n        <div class=\"info\">\n            <span class=\"label\">Updated:</span> ".data

def tplF : List Char :=
  "\n        </div>\n\n        <div class=\"body\">\n            <h3>Description:</h3>\n            ".data

def tplPre : List Char := "<pre>".data

def tplPreClose : List Char := "</pre>".data

def tplG : List Char := "\n        </div>\n\n        ".data

def tplAOpen : List Char := "<a href=\"".data

def tplLink : List Char := "\" class=\"link\">View Issue on GitHub</a>".data

def tplTail : List Char := "\n    </body>\n    </html>\n    ".data

/-- Model of `format_issue_html(issue)`: the template f-string with the interpolations
substituted verbatim (f-strings perform no HTML escaping). -/
def format_issue_html (issue : Issue) : List Char :=
  tplA ++ (Nat.repr issue.number).data ++ tplB ++ issue.title ++ tplC ++ issue.state ++
  tplD1 ++ labelsDiv (joinSep ", ".data issue.labels) ++ tplD2 ++
  assigneesDiv (joinSep ", ".data issue.assignees) ++ tplD3 ++ issue.createdAt ++ tplE ++
  issue.updatedAt ++ tplF ++ tplPre ++ issue.body.getD default_body ++ tplPreClose ++
  tplG ++ tplAOpen ++ issue.url ++ tplLink ++ tplTail

/-! ### send_email -/

inductive MimePart where
  | html (content : List Char)
  | attachment (filename : List Char) (content : List Char)
  deriving DecidableEq

structure EmailCfg where
  from_addr : List Char
  to_addrs : List Char
  smtp_host : List Char
  smtp_port : Nat
  smtp_user : List Char
  smtp_pass : List Char

/-- POSIX `os.path.basename`: everything after the last slash. -/
def basename (p : List Char) : List Char :=
  (p.reverse.takeWhile (fun c => c != '/')).reverse

/-- Model of `send_email(config, issue, attachment_path, repo_name)`.  `fexists` models
`os.path.exists`, `fcontent` the bytes read from a file, `smtp_ok` whether the
SMTP session succeeds (exceptions there are caught and yield `False`).  Result:
(return value, the parts attached to the message in order).  The attachment is
added only under `if attachment_path and os.path.exists(attachment_path)`,
where the first conjunct is Python truthiness of the path string. -/
def send_email (_config : EmailCfg) (issue : Issue) (attachment_path : Option (List Char))
    (fexists : List Char → Bool) (fcontent : List Char → List Char) (smtp_ok : Bool) :
    Bool × List MimePart :=
  let base := [MimePart.html (format_issue_html issue)]
  let parts :=
    match attachment_path with
    | none => base
    | some p =>
      if p ≠ [] ∧ fexists p = true then
        base ++ [MimePart.attachment (basename p) (fcontent p)]
      else base
  (smtp_ok, parts)

/-! ### main (Issue Notifier CLI) -/

/-- ASCII whitespace stripped by Python `int(str)`. -/
def isPySpace (c : Char) : Bool :=
  c = ' ' || c = '\t' || c = '\n' || c = '\r' || c = '\x0b' || c = '\x0c'

/-- After the leading digit: digits, with single underscores allowed strictly
between digits. -/
def digitsCore : List Char → Bool
  | [] => true
  | ['_'] => false
  | '_' :: c :: rest => c.isDigit && digitsCore rest
  | c :: rest => c.isDigit && digitsCore rest

def digitsValue (ds : List Char) : Int :=
  Int.ofNat ((ds.filter (fun c => c != '_')).foldl (fun a c => a * 10 + (c.toNat - 48)) 0)

/-- Python `int(s)` for a decimal string: optional surrounding whitespace,
optional sign, digits with optional single underscores between digits;
`none` where Python raises `ValueError`.  (Python additionally accepts
non-ASCII Unicode decimal digits and whitespace; the model restricts to
ASCII.) -/
def pyIntParse (s : List Char) : Option Int :=
  match ((s.dropWhile isPySpace).reverse.dropWhile isPySpace).reverse with
  | '+' :: d :: rest =>
    if d.isDigit && digitsCore rest then some (digitsValue (d :: rest)) else none
  | '-' :: d :: rest =>
    if d.isDigit && digitsCore rest then some (-(digitsValue (d :: rest))) else none
  | d :: rest =>
    if d.isDigit && digitsCore rest then some (digitsValue (d :: rest)) else none
  | [] => none

/-- Environment of one `main()` run: the CLI arguments after the program name,
whether the `gh` executable exists, whether `gh issue view` exits zero, the
issue it returns, the configuration, the test-results directory state, the
filesystem predicate for the attachment, and whether SMTP transmission
succeeds. -/
structure MainEnv where
  argv_tail : List (List Char)
  gh_available : Bool
  gh_exit_zero : Bool
  issue : Issue
  cfg : EmailCfg
  output_dir : List Char
  dir : DirState
  fexists : List Char → Bool
  fcontent : List Char → List Char
  smtp_ok : Bool

/-- Exit code of `main()`: 1 via `sys.exit(1)` on a missing argument, a
non-integer argument, `gh` not found, `gh` exiting non-zero, or `send_email`
returning `False`; 0 when `main` runs to completion. -/
def main_exit (env : MainEnv) : Nat :=
  match env.argv_tail with
  | [] => 1
  | arg :: _ =>
    match pyIntParse arg with
    | none => 1
    | some issue_number =>
      if env.gh_available = false then 1
      else if env.gh_exit_zero = false then 1
      else
        if (send_email env.cfg env.issue
              (find_latest_test_result issue_number env.output_dir env.dir).1
              env.fexists env.fcontent env.smtp_ok).1 then 0
        else 1

/-! ### get_issues.py (Issue Lister) -/

/-- An issue as returned by `gh issue list --json number,title,labels`. -/
structure ListedIssue where
  number : Nat
  title : List Char
  labels : List (List Char)

/-- The allow-set of the label filter. -/
def allowSet : List (List Char) := ["in-progress".data, "ready".data]

/-- The line printed for a matching issue:
`f"{number}: {title} - Labels: {','.join(labels)}"`. -/
def renderLine (i : ListedIssue) : List Char :=
  (Nat.repr i.number).data ++ ": ".data ++ i.title ++ " - Labels: ".data ++
    joinSep [','] i.labels

/-- The filter loop of `get_issues.py`: one printed line per issue whose label
list contains `'in-progress'` or `'ready'`, in input order. -/
def get_issues_lines : List ListedIssue → List (List Char)
  | [] => []
  | i :: rest =>
    if "in-progress".data ∈ i.labels ∨ "ready".data ∈ i.labels then
      renderLine i :: get_issues_lines rest
    else get_issues_lines rest

/-! ### Occurrence predicates used by the claims about rendered text -/

/-- No nontrivial split of `t` straddles the boundary between `a` and `b`. -/
def noStraddle (t a b : List Char) : Prop :=
  ∀ t1 t2, t = t1 ++ t2 → t1 ≠ [] → t2 ≠ [] → ¬ (t1 <:+ a) ∨ ¬ (t2 <+: b)

/-! ## Machinery: occurrences in concatenations -/

theorem inf_of_pre {α : Type} {t b : List α} (h : t <+: b) : t <:+: b := by
  obtain ⟨r, hr⟩ := h
  exact ⟨[], r, by simpa using hr⟩

theorem inf_of_suf {α : Type} {t a : List α} (h : t <:+ a) : t <:+: a := by
  obtain ⟨s, hs⟩ := h
  exact ⟨s, [], by simpa using hs⟩

theorem inf_split {α : Type} {t a b : List α} (h : t <:+: a ++ b) :
    t <:+: a ∨ t <:+: b ∨
      ∃ t1 t2, t = t1 ++ t2 ∧ t1 ≠ [] ∧ t2 ≠ [] ∧ t1 <:+ a ∧ t2 <+: b := by
  obtain ⟨s, r, hsr⟩ := h
  rw [List.append_assoc] at hsr
  rcases List.append_eq_append_iff.mp hsr with ⟨u, hu1, hu2⟩ | ⟨v, _hv1, hv2⟩
  · rcases List.append_eq_append_iff.mp hu2 with ⟨w, hw1, hw2⟩ | ⟨w, hw1, hw2⟩
    · exact Or.inl ⟨s, w, by rw [List.append_assoc, ← hw1]; exact hu1.symm⟩
    · rcases eq_or_ne u [] with hu0 | hu0
      · subst hu0
        simp only [List.nil_append] at hw1
        exact Or.inr (Or.inl (inf_of_pre ⟨r, by rw [← hw1] at hw2; exact hw2.symm⟩))
      · rcases eq_or_ne w [] with hw0 | hw0
        · subst hw0
          simp only [List.append_nil] at hw1
          exact Or.inl (inf_of_suf ⟨s, by rw [← hw1] at hu1; exact hu1.symm⟩)
        · exact Or.inr (Or.inr ⟨u, w, hw1, hu0, hw0, ⟨s, hu1.symm⟩, ⟨r, hw2.symm⟩⟩)
  · exact Or.inr (Or.inl ⟨v, r, by rw [List.append_assoc]; exact hv2.symm⟩)

theorem not_inf_append {t a b : List Char} (ha : ¬ t <:+: a) (hb : ¬ t <:+: b)
    (hs : noStraddle t a b) : ¬ t <:+: a ++ b := by
  intro h
  rcases inf_split h with h1 | h2 | ⟨t1, t2, ht, h1ne, h2ne, hsuf, hpre⟩
  · exact ha h1
  · exact hb h2
  · rcases hs t1 t2 ht h1ne h2ne with hc | hc
    · exact hc hsuf
    · exact hc hpre

theorem noStraddle_left {t a : List Char} (b : List Char)
    (h : ∀ i, i < t.length → 0 < i → ¬ ((t.take i) <:+ a)) : noStraddle t a b := by
  intro t1 t2 ht h1 h2
  left
  intro hsuf
  have hlen : t1.length < t.length := by
    rw [ht, List.length_append]
    have h2' : 0 < t2.length := List.length_pos.mpr h2
    omega
  have h0 : 0 < t1.length := List.length_pos.mpr h1
  have htake : t.take t1.length = t1 := by rw [ht]; exact List.take_left t1 t2
  exact h t1.length hlen h0 (by rw [htake]; exact hsuf)

theorem noStraddle_right_head {t b : List Char} (a : List Char) (c : Char)
    (hb : b.head? = some c)
    (h : ∀ i, i < t.length → 0 < i → (t.drop i).head? ≠ some c) : noStraddle t a b := by
  intro t1 t2 ht h1 h2
  right
  intro hpre
  obtain ⟨r, hr⟩ := hpre
  have hh : t2.head? = some c := by
    rw [← hb, ← hr, List.head?_append_of_ne_nil t2 h2]
  have hlen : t1.length < t.length := by
    rw [ht, List.length_append]
    have h2' : 0 < t2.length := List.length_pos.mpr h2
    omega
  have hdrop : t.drop t1.length = t2 := by rw [ht]; exact List.drop_left t1 t2
  exact h t1.length hlen (List.length_pos.mpr h1) (by rw [hdrop]; exact hh)

theorem noStraddle_left_digits {t a : List Char} (b : List Char) (c : Char)
    (hd : ∀ x ∈ a, x.isDigit = true) (hc : t.head? = some c) (h0 : c.isDigit = false) :
    noStraddle t a b := by
  intro t1 t2 ht h1 _h2
  left
  intro hsuf
  obtain ⟨s, hs⟩ := hsuf
  have hh : t1.head? = some c := by
    rw [← hc, ht, List.head?_append_of_ne_nil t1 h1]
  have hmem : c ∈ t1 := List.mem_of_mem_head? (Option.mem_def.mpr hh)
  have hca : c ∈ a := by rw [← hs]; exact List.mem_append.mpr (Or.inr hmem)
  have := hd c hca
  rw [this] at h0
  exact absurd h0 (by decide)

theorem not_inf_digits {t a : List Char} (c : Char)
    (hd : ∀ x ∈ a, x.isDigit = true) (hct : c ∈ t) (h0 : c.isDigit = false) :
    ¬ t <:+: a := by
  intro h
  obtain ⟨s, r, hsr⟩ := h
  have hca : c ∈ a := by
    rw [← hsr]
    exact List.mem_append.mpr (Or.inl (List.mem_append.mpr (Or.inr hct)))
  have := hd c hca
  rw [this] at h0
  exact absurd h0 (by decide)

/-! ## Machinery: decimal digit strings -/

theorem digitChar_isDigit (k : Nat) (h : k < 10) : (Nat.digitChar k).isDigit = true := by
  interval_cases k <;> decide

theorem toDigitsCore_digits (fuel : Nat) :
    ∀ (n : Nat) (ds : List Char), (∀ c ∈ ds, c.isDigit = true) →
      ∀ c ∈ Nat.toDigitsCore 10 fuel n ds, c.isDigit = true := by
  induction fuel with
  | zero =>
    intro n ds hds c hc
    exact hds c hc
  | succ fuel ih =>
    intro n ds hds c hc
    have hcons : ∀ x ∈ (Nat.digitChar (n % 10)) :: ds, x.isDigit = true := by
      intro x hx
      rcases List.mem_cons.mp hx with h | h
      · rw [h]; exact digitChar_isDigit _ (Nat.mod_lt _ (by norm_num))
      · exact hds x h
    rw [Nat.toDigitsCore] at hc
    by_cases hn : n / 10 = 0
    · rw [if_pos hn] at hc
      exact hcons c hc
    · rw [if_neg hn] at hc
      exact ih (n / 10) _ hcons c hc

theorem repr_digits (n : Nat) : ∀ c ∈ (Nat.repr n).data, c.isDigit = true := by
  intro c hc
  have he : (Nat.repr n).data = Nat.toDigitsCore 10 (n + 1) n [] := rfl
  rw [he] at hc
  exact toDigitsCore_digits (n + 1) n []
    (fun x hx => absurd hx (List.not_mem_nil x)) c hc

theorem intRepr_digits (i : Int) (h : 0 ≤ i) : ∀ c ∈ intRepr i, c.isDigit = true := by
  intro c hc
  rw [intRepr, if_neg (by omega)] at hc
  exact repr_digits i.toNat c hc

theorem digit_seg_eq : ∀ (a b u v : List Char), (∀ c ∈ a, c.isDigit = true) →
    (∀ c ∈ b, c.isDigit = true) → a ++ '-' :: u = b ++ '-' :: v → a = b := by
  intro a
  induction a with
  | nil =>
    intro b u v _ hb h
    cases b with
    | nil => rfl
    | cons c bs =>
      simp only [List.nil_append, List.cons_append] at h
      injection h with h1 _h2
      have := hb c (List.mem_cons_self c bs)
      rw [← h1] at this
      exact absurd this (by decide)
  | cons x xs ih =>
    intro b u v ha hb h
    cases b with
    | nil =>
      simp only [List.cons_append, List.nil_append] at h
      injection h with h1 _h2
      have := ha x (List.mem_cons_self x xs)
      rw [h1] at this
      exact absurd this (by decide)
    | cons c bs =>
      simp only [List.cons_append] at h
      injection h with h1 h2
      rw [h1, ih bs u v (fun y hy => ha y (List.mem_cons_of_mem x hy))
        (fun y hy => hb y (List.mem_cons_of_mem c hy)) h2]

theorem dropPre_sound : ∀ (p s r : List Char), dropPre p s = some r → s = p ++ r := by
  intro p
  induction p with
  | nil =>
    intro s r h
    simp only [dropPre, Option.some.injEq] at h
    rw [h, List.nil_append]
  | cons c cs ih =>
    intro s r h
    cases s with
    | nil => exact absurd h (by simp [dropPre])
    | cons d ds =>
      rw [dropPre] at h
      by_cases hd : d = c
      · rw [if_pos hd] at h
        rw [List.cons_append, ← ih ds r h, hd]
      · rw [if_neg hd] at h
        exact absurd h (by simp)

theorem getLast?_append_ne {b : List Char} {c : Char} (a : List Char)
    (hb : b.getLast? = some c) : (a ++ b).getLast? = some c := by
  rw [List.getLast?_append, hb]
  rfl

/-! ## Machinery: the stable descending sort -/

theorem firstMax_eq_none : ∀ l : List (List Char × Nat), firstMax l = none ↔ l = [] := by
  intro l
  cases l with
  | nil => simp [firstMax]
  | cons x xs =>
    simp only [firstMax]
    cases firstMax xs with
    | none => simp
    | some m => by_cases h : m.2 ≤ x.2 <;> simp [h]

theorem head?_insertRev (x : List Char × Nat) (s : List (List Char × Nat)) :
    (insertRev x s).head? =
      some (match s.head? with
        | none => x
        | some y => if y.2 ≤ x.2 then x else y) := by
  cases s with
  | nil => rfl
  | cons y ys => by_cases h : y.2 ≤ x.2 <;> simp [insertRev, h]

theorem head?_sortRev : ∀ l : List (List Char × Nat), (sortRev l).head? = firstMax l := by
  intro l
  induction l with
  | nil => rfl
  | cons x xs ih =>
    rw [sortRev, head?_insertRev, ih, firstMax]
    cases firstMax xs with
    | none => rfl
    | some m => by_cases h : m.2 ≤ x.2 <;> simp [h]

theorem firstMax_spec : ∀ (l : List (List Char × Nat)) (m : List Char × Nat),
    firstMax l = some m → m ∈ l ∧ m.2 = maxKey l := by
  intro l
  induction l with
  | nil => intro m h; exact absurd h (by simp [firstMax])
  | cons x xs ih =>
    intro m h
    rw [firstMax] at h
    cases hfm : firstMax xs with
    | none =>
      rw [hfm] at h
      injection h with h1
      have hxs : xs = [] := (firstMax_eq_none xs).mp hfm
      subst hxs
      rw [← h1]
      exact ⟨List.mem_cons_self x [], by rw [maxKey, maxKey]; omega⟩
    | some m' =>
      rw [hfm] at h
      dsimp only at h
      obtain ⟨hmem, hkey⟩ := ih m' hfm
      by_cases hle : m'.2 ≤ x.2
      · rw [if_pos hle] at h
        injection h with h1
        subst h1
        refine ⟨List.mem_cons_self _ _, ?_⟩
        rw [maxKey, ← hkey]
        omega
      · rw [if_neg hle] at h
        injection h with h1
        subst h1
        refine ⟨List.mem_cons_of_mem x hmem, ?_⟩
        rw [maxKey, ← hkey]
        omega

theorem mem_le_maxKey : ∀ (l : List (List Char × Nat)) (g : List Char × Nat),
    g ∈ l → g.2 ≤ maxKey l := by
  intro l
  induction l with
  | nil => intro g h; exact absurd h (List.not_mem_nil g)
  | cons x xs ih =>
    intro g h
    rw [maxKey]
    rcases List.mem_cons.mp h with h1 | h1
    · rw [h1]; exact Nat.le_max_left _ _
    · exact Nat.le_trans (ih g h1) (Nat.le_max_right _ _)

theorem firstMax_filter : ∀ l : List (List Char × Nat),
    firstMax l = (l.filter fun x => x.2 == maxKey l).head? := by
  intro l
  induction l with
  | nil => rfl
  | cons x xs ih =>
    rw [firstMax]
    cases hfm : firstMax xs with
    | none =>
      have hxs : xs = [] := (firstMax_eq_none xs).mp hfm
      subst hxs
      simp [maxKey]
    | some m =>
      dsimp only
      obtain ⟨_hmem, hkey⟩ := firstMax_spec xs m hfm
      by_cases hle : m.2 ≤ x.2
      · rw [if_pos hle]
        have hmax : maxKey (x :: xs) = x.2 := by
          rw [maxKey, ← hkey]; omega
        rw [hmax, List.filter_cons, if_pos (by simp)]
        rfl
      · rw [if_neg hle]
        have hmax : maxKey (x :: xs) = maxKey xs := by
          rw [maxKey, ← hkey]; omega
        rw [hmax, List.filter_cons, if_neg (by simp [← hkey]; omega)]
        rw [← ih, hfm]

/-! ## Machinery: the collection loop -/

theorem fileEntry_eq (issue : Int) (od fn : List Char) :
    fileEntry issue od fn =
      ((re_match issue fn).bind strptime).map (fun k => (os_path_join od fn, k)) := by
  cases hre : re_match issue fn with
  | none => simp [fileEntry, hre]
  | some g =>
    cases hst : strptime g with
    | none => simp [fileEntry, hre, hst]
    | some k => simp [fileEntry, hre, hst]

theorem matchingFiles_drop (issue : Int) (od : List Char) (l1 l2 : List (List Char))
    (fn : List Char) (h : fileEntry issue od fn = none) :
    matchingFiles issue od (l1 ++ fn :: l2) = matchingFiles issue od (l1 ++ l2) := by
  simp [matchingFiles, List.filterMap_append, List.filterMap_cons, h]

theorem find_latest_drop (issue : Int) (od : List Char) (e : Bool)
    (l1 l2 : List (List Char)) (fn : List Char) (h : fileEntry issue od fn = none) :
    find_latest_test_result issue od ⟨e, l1 ++ fn :: l2⟩ =
      find_latest_test_result issue od ⟨e, l1 ++ l2⟩ := by
  have hm := matchingFiles_drop issue od l1 l2 fn h
  simp only [find_latest_test_result, hm]

/-! ## Claims about the newest-artifact selector -/

/-- C1: for every directory state and issue identifier, when the directory
contains artifacts named for that issue with distinct valid embedded timestamps
(stated as: the entry `f` is the strict maximum of the collected entries),
`find_latest_test_result` returns exactly the path of the file whose parsed
timestamp is maximal. -/
theorem C1_selects_max (issue : Int) (output_dir : List Char) (d : DirState)
    (f : List Char × Nat) (hd : d.dirExists = true)
    (hf : f ∈ matchingFiles issue output_dir d.listing)
    (hmax : ∀ g ∈ matchingFiles issue output_dir d.listing, g ≠ f → g.2 < f.2) :
    (find_latest_test_result issue output_dir d).1 = some f.1 := by
  have hne : matchingFiles issue output_dir d.listing ≠ [] := by
    intro h0
    rw [h0] at hf
    exact absurd hf (List.not_mem_nil f)
  simp only [find_latest_test_result, hd, Bool.true_eq_false, if_false, if_neg hne]
  rw [head?_sortRev]
  cases hfm : firstMax (matchingFiles issue output_dir d.listing) with
  | none => exact absurd ((firstMax_eq_none _).mp hfm) hne
  | some mx =>
    obtain ⟨hmem, hkey⟩ := firstMax_spec _ mx hfm
    rcases eq_or_ne mx f with he | hne2
    · rw [he]
      rfl
    · have h1 : mx.2 < f.2 := hmax mx hmem hne2
      have h2 : f.2 ≤ maxKey (matchingFiles issue output_dir d.listing) :=
        mem_le_maxKey _ f hf
      rw [← hkey] at h2
      omega

/-- C1 witness: the two-file example from the specification; the file stamped
01-03-2024-09-00-00 is selected over the one stamped 01-02-2024-10-00-00. -/
theorem C1_witness :
    (find_latest_test_result 32 "TestOutputs".data
        ⟨true, ["Test-Results-GH32-01-02-2024-10-00-00.html".data,
                "Test-Results-GH32-01-03-2024-09-00-00.html".data]⟩).1 =
      some "TestOutputs/Test-Results-GH32-01-03-2024-09-00-00.html".data :=
  C1_selects_max 32 "TestOutputs".data
    ⟨true, ["Test-Results-GH32-01-02-2024-10-00-00.html".data,
            "Test-Results-GH32-01-03-2024-09-00-00.html".data]⟩
    ("TestOutputs/Test-Results-GH32-01-03-2024-09-00-00.html".data, 72750474000)
    rfl (by decide) (by decide)

/-- C9: the sort is stable and `reverse=True` preserves the relative order of
equal keys, so the selection always returns the first-listed entry among those
attaining the maximal timestamp. -/
theorem C9_tie_first_listed (issue : Int) (output_dir : List Char) (d : DirState)
    (hd : d.dirExists = true) :
    (find_latest_test_result issue output_dir d).1 =
      ((matchingFiles issue output_dir d.listing).filter
          (fun x => x.2 == maxKey (matchingFiles issue output_dir d.listing))).head?.map
        Prod.fst := by
  by_cases hne : matchingFiles issue output_dir d.listing = []
  · simp [find_latest_test_result, hd, hne]
  · simp only [find_latest_test_result, hd, Bool.true_eq_false, if_false, if_neg hne]
    rw [head?_sortRev, firstMax_filter]

/-- C9 witness: two artifacts with the identical timestamp; the first-listed
one (the `.htm` file) is selected. -/
theorem C9_witness :
    (find_latest_test_result 32 "TestOutputs".data
        ⟨true, ["Test-Results-GH32-01-02-2024-10-00-00.htm".data,
                "Test-Results-GH32-01-02-2024-10-00-00.html".data]⟩).1 =
      ((matchingFiles 32 "TestOutputs".data
          ["Test-Results-GH32-01-02-2024-10-00-00.htm".data,
           "Test-Results-GH32-01-02-2024-10-00-00.html".data]).filter
          (fun x => x.2 == maxKey (matchingFiles 32 "TestOutputs".data
            ["Test-Results-GH32-01-02-2024-10-00-00.htm".data,
             "Test-Results-GH32-01-02-2024-10-00-00.html".data]))).head?.map Prod.fst ∧
    (find_latest_test_result 32 "TestOutputs".data
        ⟨true, ["Test-Results-GH32-01-02-2024-10-00-00.htm".data,
                "Test-Results-GH32-01-02-2024-10-00-00.html".data]⟩).1 =
      some "TestOutputs/Test-Results-GH32-01-02-2024-10-00-00.htm".data :=
  ⟨C9_tie_first_listed 32 "TestOutputs".data
      ⟨true, ["Test-Results-GH32-01-02-2024-10-00-00.htm".data,
              "Test-Results-GH32-01-02-2024-10-00-00.html".data]⟩ rfl,
   by decide⟩

/-- C10: whenever the selector returns a result, it is the join of the output
directory with a filename enumerated from that directory, and that filename
matches the pattern with a timestamp that parses successfully. -/
theorem C10_result_is_listed (issue : Int) (output_dir : List Char) (d : DirState)
    (p : List Char) (hd : d.dirExists = true)
    (h : (find_latest_test_result issue output_dir d).1 = some p) :
    ∃ fn, fn ∈ d.listing ∧ ∃ g k, re_match issue fn = some g ∧ strptime g = some k ∧
      p = os_path_join output_dir fn := by
  by_cases hne : matchingFiles issue output_dir d.listing = []
  · simp [find_latest_test_result, hd, hne] at h
  · simp only [find_latest_test_result, hd, Bool.true_eq_false, if_false, if_neg hne] at h
    rw [head?_sortRev] at h
    cases hfm : firstMax (matchingFiles issue output_dir d.listing) with
    | none => exact absurd ((firstMax_eq_none _).mp hfm) hne
    | some mx =>
      rw [hfm] at h
      simp only [Option.map_some', Option.some.injEq] at h
      have hmem := (firstMax_spec _ mx hfm).1
      rw [matchingFiles] at hmem
      obtain ⟨fn, hfn, hentry⟩ := List.mem_filterMap.mp hmem
      cases hre : re_match issue fn with
      | none =>
        simp [fileEntry, hre] at hentry
      | some g =>
        cases hst : strptime g with
        | none =>
          simp [fileEntry, hre, hst] at hentry
        | some k =>
          simp only [fileEntry, hre, hst, Option.some.injEq] at hentry
          exact ⟨fn, hfn, g, k, hre, hst, by rw [← h, ← hentry]⟩

/-- C2 counterexample: a directory-listing entry that does not match the
spec's fixed pattern (it carries a trailing newline after `.html`, so it ends
in neither `.htm` nor `.html`) nevertheless changes the selection result for
issue 32, because the Python `$` anchor also matches just before a final
newline. -/
theorem C2_counterexample :
    spec_matches_name 32 "Test-Results-GH32-01-02-2024-10-00-00.html\n".data = false ∧
    (find_latest_test_result 32 "TestOutputs".data
        ⟨true, ["Test-Results-GH32-01-02-2024-10-00-00.html\n".data]⟩).1 ≠
      (find_latest_test_result 32 "TestOutputs".data ⟨true, []⟩).1 := by
  constructor
  · decide
  · decide

/-- C2 (amended): a filename that the code's pattern does not match — the
fixed pattern with the `$` anchor also accepting one trailing newline — never
influences the selection result for issue `N`, and a well-formed artifact name
that carries a different issue-number digit string never matches the pattern
for issue `N`. -/
theorem C2_nonmatching_no_influence (issue : Int) (output_dir : List Char) (e : Bool)
    (l1 l2 : List (List Char)) (fn : List Char) :
    (re_match issue fn = none →
      find_latest_test_result issue output_dir ⟨e, l1 ++ fn :: l2⟩ =
        find_latest_test_result issue output_dir ⟨e, l1 ++ l2⟩) ∧
    (∀ ds ts ext : List Char, 0 ≤ issue → (∀ c ∈ ds, c.isDigit = true) →
      ds ≠ intRepr issue → (ext = ".htm".data ∨ ext = ".html".data) →
      re_match issue ("Test-Results-GH".data ++ ds ++ "-".data ++ ts ++ ext) = none) := by
  constructor
  · intro h
    exact find_latest_drop issue output_dir e l1 l2 fn (by simp [fileEntry, h])
  · intro ds ts ext hpos hds hne hext
    have hstrip : strip_trailing_newline
        ("Test-Results-GH".data ++ ds ++ "-".data ++ ts ++ ext) =
        "Test-Results-GH".data ++ ds ++ "-".data ++ ts ++ ext := by
      rw [strip_trailing_newline, if_neg]
      rcases hext with he | he <;> rw [he]
      · rw [getLast?_append_ne ("Test-Results-GH".data ++ ds ++ "-".data ++ ts)
            (show (".htm".data).getLast? = some 'm' by decide)]
        decide
      · rw [getLast?_append_ne ("Test-Results-GH".data ++ ds ++ "-".data ++ ts)
            (show (".html".data).getLast? = some 'l' by decide)]
        decide
    rw [re_match, hstrip, re_core]
    cases hdp : dropPre ("Test-Results-GH".data ++ intRepr issue ++ ['-'])
        ("Test-Results-GH".data ++ ds ++ "-".data ++ ts ++ ext) with
    | none => rfl
    | some rest =>
      exfalso
      have hbig := dropPre_sound _ _ _ hdp
      rw [show "-".data = ['-'] from rfl] at hbig
      simp only [List.append_assoc, List.singleton_append] at hbig
      have hcanc : ds ++ '-' :: (ts ++ ext) = intRepr issue ++ '-' :: rest :=
        List.append_cancel_left hbig
      exact hne (digit_seg_eq ds (intRepr issue) (ts ++ ext) rest hds
        (intRepr_digits issue hpos) hcanc)

/-- C2 witness: a non-matching filename (`notes.txt`) does not change the
selection, and a well-formed artifact name for issue 99 does not match the
pattern for issue 32. -/
theorem C2_witness :
    (find_latest_test_result 32 "TestOutputs".data
        ⟨true, ["notes.txt".data, "Test-Results-GH32-01-02-2024-10-00-00.html".data]⟩ =
      find_latest_test_result 32 "TestOutputs".data
        ⟨true, ["Test-Results-GH32-01-02-2024-10-00-00.html".data]⟩) ∧
    re_match 32 ("Test-Results-GH".data ++ "99".data ++ "-".data ++
        "01-02-2024-10-00-00".data ++ ".html".data) = none :=
  ⟨(C2_nonmatching_no_influence 32 "TestOutputs".data true []
      ["Test-Results-GH32-01-02-2024-10-00-00.html".data] "notes.txt".data).1 (by decide),
   (C2_nonmatching_no_influence 32 "TestOutputs".data true [] [] []).2
      "99".data "01-02-2024-10-00-00".data ".html".data (by decide) (by decide)
      (by decide) (Or.inr rfl)⟩

/-- C3: the selector returns the none-found result, with the warning printed,
whenever the directory does not exist, no listed filename matches, or every
matching filename has an unparsable timestamp; a filename whose timestamp
fails to parse is silently excluded and never influences the result. -/
theorem C3_none_found (issue : Int) (output_dir : List Char) (e : Bool)
    (l l2 : List (List Char)) (fn g : List Char) :
    (find_latest_test_result issue output_dir ⟨false, l⟩ =
        (none, [warn_dir output_dir])) ∧
    ((∀ f ∈ l, re_match issue f = none) →
      find_latest_test_result issue output_dir ⟨true, l⟩ =
        (none, [warn_none issue])) ∧
    ((∀ f ∈ l, (re_match issue f).bind strptime = none) →
      find_latest_test_result issue output_dir ⟨true, l⟩ =
        (none, [warn_none issue])) ∧
    (re_match issue fn = some g → strptime g = none →
      find_latest_test_result issue output_dir ⟨e, l ++ fn :: l2⟩ =
        find_latest_test_result issue output_dir ⟨e, l ++ l2⟩) := by
  refine ⟨?_, ?_, ?_, ?_⟩
  · simp [find_latest_test_result]
  · intro h
    have hm : matchingFiles issue output_dir l = [] := by
      rw [matchingFiles, List.filterMap_eq_nil_iff]
      intro f hf
      simp [fileEntry_eq, h f hf]
    simp [find_latest_test_result, hm]
  · intro h
    have hm : matchingFiles issue output_dir l = [] := by
      rw [matchingFiles, List.filterMap_eq_nil_iff]
      intro f hf
      simp [fileEntry_eq, h f hf]
    simp [find_latest_test_result, hm]
  · intro h1 h2
    exact find_latest_drop issue output_dir e l l2 fn (by simp [fileEntry_eq, h1, h2])

/-- C3 witness: a file whose timestamp segment has month 13 is the only
candidate; it is silently excluded and the selector reports none found. -/
theorem C3_witness :
    find_latest_test_result 32 "TestOutputs".data
        ⟨true, ["Test-Results-GH32-13-01-2024-00-00-00.html".data]⟩ =
      (none, [warn_none 32]) :=
  (C3_none_found 32 "TestOutputs".data true
      ["Test-Results-GH32-13-01-2024-00-00-00.html".data] [] [] []).2.2.1 (by decide)

/-- C10 witness: the selected path for a one-file directory is the join of the
directory with that listed, matching, parseable filename. -/
theorem C10_witness :
    ∃ fn, fn ∈ ["Test-Results-GH32-01-02-2024-10-00-00.html".data] ∧
      ∃ g k, re_match 32 fn = some g ∧ strptime g = some k ∧
        "TestOutputs/Test-Results-GH32-01-02-2024-10-00-00.html".data =
          os_path_join "TestOutputs".data fn :=
  C10_result_is_listed 32 "TestOutputs".data
    ⟨true, ["Test-Results-GH32-01-02-2024-10-00-00.html".data]⟩
    "TestOutputs/Test-Results-GH32-01-02-2024-10-00-00.html".data rfl (by decide)

/-! ## Claims about the Issue Lister, the Notifier CLI and the email sender -/

/-- C4: the Issue Lister prints a line for an issue if and only if its label
set intersects the allow-set; an issue labeled only `blocked` is excluded, one
labeled `ready, blocked` is included, and each printed line carries the
identifier, the title and the comma-joined labels. -/
theorem C4_label_filter (issues : List ListedIssue) :
    (get_issues_lines issues =
      (issues.filter fun i =>
        decide ("in-progress".data ∈ i.labels ∨ "ready".data ∈ i.labels)).map renderLine) ∧
    (∀ i : ListedIssue,
      ("in-progress".data ∈ i.labels ∨ "ready".data ∈ i.labels) ↔
        ∃ l ∈ i.labels, l ∈ allowSet) ∧
    (∀ n t, get_issues_lines [⟨n, t, ["blocked".data]⟩] = []) ∧
    (∀ n t, get_issues_lines [⟨n, t, ["ready".data, "blocked".data]⟩] =
      [renderLine ⟨n, t, ["ready".data, "blocked".data]⟩]) ∧
    (∀ i : ListedIssue, (Nat.repr i.number).data <+: renderLine i ∧
      i.title <:+: renderLine i ∧ joinSep [','] i.labels <:+ renderLine i) := by
  refine ⟨?_, ?_, ?_, ?_, ?_⟩
  · induction issues with
    | nil => rfl
    | cons i rest ih =>
      rw [get_issues_lines]
      by_cases h : "in-progress".data ∈ i.labels ∨ "ready".data ∈ i.labels
      · rw [if_pos h, List.filter_cons, if_pos (by simpa using h), List.map_cons, ih]
      · rw [if_neg h, List.filter_cons, if_neg (by simpa using h), ih]
  · intro i
    constructor
    · rintro (h | h)
      · exact ⟨"in-progress".data, h, by simp [allowSet]⟩
      · exact ⟨"ready".data, h, by simp [allowSet]⟩
    · rintro ⟨l, hl, hal⟩
      have : l = "in-progress".data ∨ l = "ready".data := by simpa [allowSet] using hal
      rcases this with h | h
      · rw [h] at hl
        exact Or.inl hl
      · rw [h] at hl
        exact Or.inr hl
  · intro n t
    rw [get_issues_lines]
    dsimp only
    rw [if_neg (by decide), get_issues_lines]
  · intro n t
    rw [get_issues_lines]
    dsimp only
    rw [if_pos (by decide), get_issues_lines]
  · intro i
    refine ⟨⟨": ".data ++ i.title ++ " - Labels: ".data ++ joinSep [','] i.labels, ?_⟩,
      ⟨(Nat.repr i.number).data ++ ": ".data,
        " - Labels: ".data ++ joinSep [','] i.labels, ?_⟩,
      ⟨(Nat.repr i.number).data ++ ": ".data ++ i.title ++ " - Labels: ".data, ?_⟩⟩ <;>
      simp [renderLine, List.append_assoc]

/-- C5: the Issue Notifier exits 1 when the positional argument is missing,
when it is not an integer, when the tracker command is unavailable, when the
tracker command exits non-zero, or when email transmission fails; it exits 0
on success. -/
theorem C5_exit_codes (env : MainEnv) :
    (env.argv_tail = [] → main_exit env = 1) ∧
    (∀ arg rest, env.argv_tail = arg :: rest → pyIntParse arg = none →
      main_exit env = 1) ∧
    (∀ arg rest n, env.argv_tail = arg :: rest → pyIntParse arg = some n →
      env.gh_available = false → main_exit env = 1) ∧
    (∀ arg rest n, env.argv_tail = arg :: rest → pyIntParse arg = some n →
      env.gh_available = true → env.gh_exit_zero = false → main_exit env = 1) ∧
    (∀ arg rest n, env.argv_tail = arg :: rest → pyIntParse arg = some n →
      env.gh_available = true → env.gh_exit_zero = true → env.smtp_ok = false →
      main_exit env = 1) ∧
    (∀ arg rest n, env.argv_tail = arg :: rest → pyIntParse arg = some n →
      env.gh_available = true → env.gh_exit_zero = true → env.smtp_ok = true →
      main_exit env = 0) := by
  refine ⟨?_, ?_, ?_, ?_, ?_, ?_⟩
  · intro h
    simp [main_exit, h]
  · intro arg rest h1 h2
    simp [main_exit, h1, h2]
  · intro arg rest n h1 h2 h3
    simp [main_exit, h1, h2, h3]
  · intro arg rest n h1 h2 h3 h4
    simp [main_exit, h1, h2, h3, h4]
  · intro arg rest n h1 h2 h3 h4 h5
    simp [main_exit, h1, h2, h3, h4, send_email, h5]
  · intro arg rest n h1 h2 h3 h4 h5
    simp [main_exit, h1, h2, h3, h4, send_email, h5]

/-- C5 witness: a successful run exits 0. -/
theorem C5_witness :
    main_exit
      ⟨["32".data], true, true,
        ⟨1, "T".data, some "B".data, "U".data, "OPEN".data, [], [], "C".data, "D".data⟩,
        ⟨[], [], [], 0, [], []⟩, "TestOutputs".data, ⟨true, []⟩,
        fun _ => false, fun _ => [], true⟩ = 0 :=
  (C5_exit_codes
      ⟨["32".data], true, true,
        ⟨1, "T".data, some "B".data, "U".data, "OPEN".data, [], [], "C".data, "D".data⟩,
        ⟨[], [], [], 0, [], []⟩, "TestOutputs".data, ⟨true, []⟩,
        fun _ => false, fun _ => [], true⟩).2.2.2.2.2
    "32".data [] 32 rfl (by decide) rfl rfl rfl

/-- C6: when the attachment path is absent or does not exist on disk, the
message is built without any attachment part and the transmission outcome is
exactly the SMTP outcome — the missing attachment raises no error. -/
theorem C6_missing_attachment (cfg : EmailCfg) (issue : Issue)
    (ap : Option (List Char)) (fexists : List Char → Bool)
    (fcontent : List Char → List Char) (smtp_ok : Bool)
    (h : ap = none ∨ ∃ p, ap = some p ∧ fexists p = false) :
    (send_email cfg issue ap fexists fcontent smtp_ok).2 =
      [MimePart.html (format_issue_html issue)] ∧
    (send_email cfg issue ap fexists fcontent smtp_ok).1 = smtp_ok := by
  rcases h with h | ⟨p, hp, hex⟩
  · rw [h]
    exact ⟨rfl, rfl⟩
  · rw [hp]
    refine ⟨?_, rfl⟩
    simp [send_email, hex]

/-- C6 witness: a nonexistent attachment path still yields a sent email with
only the HTML part. -/
theorem C6_witness :
    (send_email ⟨[], [], [], 0, [], []⟩
        ⟨1, "T".data, some "B".data, "U".data, "OPEN".data, [], [], "C".data, "D".data⟩
        (some "TestOutputs/x.html".data) (fun _ => false) (fun _ => []) true).2 =
      [MimePart.html (format_issue_html
        ⟨1, "T".data, some "B".data, "U".data, "OPEN".data, [], [], "C".data, "D".data⟩)] ∧
    (send_email ⟨[], [], [], 0, [], []⟩
        ⟨1, "T".data, some "B".data, "U".data, "OPEN".data, [], [], "C".data, "D".data⟩
        (some "TestOutputs/x.html".data) (fun _ => false) (fun _ => []) true).1 = true :=
  C6_missing_attachment ⟨[], [], [], 0, [], []⟩
    ⟨1, "T".data, some "B".data, "U".data, "OPEN".data, [], [], "C".data, "D".data⟩
    (some "TestOutputs/x.html".data) (fun _ => false) (fun _ => []) true
    (Or.inr ⟨"TestOutputs/x.html".data, rfl, rfl⟩)

/-! ## Claims about the rendered HTML -/

/-- C8: the HTML document embeds the issue body text verbatim — character for
character, with no escaping — inside the `<pre>` element, together with the
link back to the issue's url, the identifier, title, state, and
created/updated timestamps. -/
theorem C8_body_verbatim (issue : Issue) (b : List Char) (hb : issue.body = some b) :
    (tplPre ++ b ++ tplPreClose) <:+: format_issue_html issue ∧
    (tplAOpen ++ issue.url ++ tplLink) <:+: format_issue_html issue ∧
    (Nat.repr issue.number).data <:+: format_issue_html issue ∧
    issue.title <:+: format_issue_html issue ∧
    issue.state <:+: format_issue_html issue ∧
    issue.createdAt <:+: format_issue_html issue ∧
    issue.updatedAt <:+: format_issue_html issue := by
  refine ⟨?_, ?_, ?_, ?_, ?_, ?_, ?_⟩
  · exact ⟨tplA ++ (Nat.repr issue.number).data ++ tplB ++ issue.title ++ tplC ++
      issue.state ++ tplD1 ++ labelsDiv (joinSep ", ".data issue.labels) ++ tplD2 ++
      assigneesDiv (joinSep ", ".data issue.assignees) ++ tplD3 ++ issue.createdAt ++
      tplE ++ issue.updatedAt ++ tplF,
      tplG ++ tplAOpen ++ issue.url ++ tplLink ++ tplTail,
      by simp only [format_issue_html, hb, Option.getD_some, List.append_assoc]⟩
  · exact ⟨tplA ++ (Nat.repr issue.number).data ++ tplB ++ issue.title ++ tplC ++
      issue.state ++ tplD1 ++ labelsDiv (joinSep ", ".data issue.labels) ++ tplD2 ++
      assigneesDiv (joinSep ", ".data issue.assignees) ++ tplD3 ++ issue.createdAt ++
      tplE ++ issue.updatedAt ++ tplF ++ tplPre ++ issue.body.getD default_body ++
      tplPreClose ++ tplG,
      tplTail,
      by simp only [format_issue_html, List.append_assoc]⟩
  · exact ⟨tplA,
      tplB ++ issue.title ++ tplC ++ issue.state ++ tplD1 ++
        labelsDiv (joinSep ", ".data issue.labels) ++ tplD2 ++
        assigneesDiv (joinSep ", ".data issue.assignees) ++ tplD3 ++ issue.createdAt ++
        tplE ++ issue.updatedAt ++ tplF ++ tplPre ++ issue.body.getD default_body ++
        tplPreClose ++ tplG ++ tplAOpen ++ issue.url ++ tplLink ++ tplTail,
      by simp only [format_issue_html, List.append_assoc]⟩
  · exact ⟨tplA ++ (Nat.repr issue.number).data ++ tplB,
      tplC ++ issue.state ++ tplD1 ++ labelsDiv (joinSep ", ".data issue.labels) ++
        tplD2 ++ assigneesDiv (joinSep ", ".data issue.assignees) ++ tplD3 ++
        issue.createdAt ++ tplE ++ issue.updatedAt ++ tplF ++ tplPre ++
        issue.body.getD default_body ++ tplPreClose ++ tplG ++ tplAOpen ++ issue.url ++
        tplLink ++ tplTail,
      by simp only [format_issue_html, List.append_assoc]⟩
  · exact ⟨tplA ++ (Nat.repr issue.number).data ++ tplB ++ issue.title ++ tplC,
      tplD1 ++ labelsDiv (joinSep ", ".data issue.labels) ++ tplD2 ++
        assigneesDiv (joinSep ", ".data issue.assignees) ++ tplD3 ++ issue.createdAt ++
        tplE ++ issue.updatedAt ++ tplF ++ tplPre ++ issue.body.getD default_body ++
        tplPreClose ++ tplG ++ tplAOpen ++ issue.url ++ tplLink ++ tplTail,
      by simp only [format_issue_html, List.append_assoc]⟩
  · exact ⟨tplA ++ (Nat.repr issue.number).data ++ tplB ++ issue.title ++ tplC ++
      issue.state ++ tplD1 ++ labelsDiv (joinSep ", ".data issue.labels) ++ tplD2 ++
      assigneesDiv (joinSep ", ".data issue.assignees) ++ tplD3,
      tplE ++ issue.updatedAt ++ tplF ++ tplPre ++ issue.body.getD default_body ++
        tplPreClose ++ tplG ++ tplAOpen ++ issue.url ++ tplLink ++ tplTail,
      by simp only [format_issue_html, List.append_assoc]⟩
  · exact ⟨tplA ++ (Nat.repr issue.number).data ++ tplB ++ issue.title ++ tplC ++
      issue.state ++ tplD1 ++ labelsDiv (joinSep ", ".data issue.labels) ++ tplD2 ++
      assigneesDiv (joinSep ", ".data issue.assignees) ++ tplD3 ++ issue.createdAt ++
      tplE,
      tplF ++ tplPre ++ issue.body.getD default_body ++ tplPreClose ++ tplG ++
        tplAOpen ++ issue.url ++ tplLink ++ tplTail,
      by simp only [format_issue_html, List.append_assoc]⟩

/-- C7: for an issue with an empty assignees list and an empty labels list
(and whose text fields do not themselves contain the literal strings
`Labels:` or `Assignees:`), the rendered HTML contains no occurrence of
`Labels:` and none of `Assignees:` — the two optional lines are omitted
entirely, not rendered empty — while still containing the identifier, title,
state, and the created/updated timestamps. -/
theorem C7_omits_empty_lines (issue : Issue)
    (hlab : issue.labels = []) (hass : issue.assignees = [])
    (ht1 : ¬ ("Labels:".data <:+: issue.title))
    (ht2 : ¬ ("Assignees:".data <:+: issue.title))
    (hs1 : ¬ ("Labels:".data <:+: issue.state))
    (hs2 : ¬ ("Assignees:".data <:+: issue.state))
    (hc1 : ¬ ("Labels:".data <:+: issue.createdAt))
    (hc2 : ¬ ("Assignees:".data <:+: issue.createdAt))
    (hu1 : ¬ ("Labels:".data <:+: issue.updatedAt))
    (hu2 : ¬ ("Assignees:".data <:+: issue.updatedAt))
    (hb1 : ¬ ("Labels:".data <:+: issue.body.getD default_body))
    (hb2 : ¬ ("Assignees:".data <:+: issue.body.getD default_body))
    (hr1 : ¬ ("Labels:".data <:+: issue.url))
    (hr2 : ¬ ("Assignees:".data <:+: issue.url)) :
    ¬ ("Labels:".data <:+: format_issue_html issue) ∧
    ¬ ("Assignees:".data <:+: format_issue_html issue) ∧
    (Nat.repr issue.number).data <:+: format_issue_html issue ∧
    issue.title <:+: format_issue_html issue ∧
    issue.state <:+: format_issue_html issue ∧
    issue.createdAt <:+: format_issue_html issue ∧
    issue.updatedAt <:+: format_issue_html issue := by
  have hhtml : format_issue_html issue =
      tplA ++ ((Nat.repr issue.number).data ++ (tplB ++ (issue.title ++ (tplC ++
        (issue.state ++ (tplD1 ++ (tplD2 ++ (tplD3 ++ (issue.createdAt ++ (tplE ++
        (issue.updatedAt ++ (tplF ++ (tplPre ++ ((issue.body.getD default_body) ++
        (tplPreClose ++ (tplG ++ (tplAOpen ++ (issue.url ++ (tplLink ++
        tplTail))))))))))))))))))) := by
    simp [format_issue_html, hlab, hass, labelsDiv, assigneesDiv, joinSep,
      List.intersperse, List.append_assoc]
  refine ⟨?_, ?_, ?_, ?_, ?_, ?_, ?_⟩
  · rw [hhtml]
    simp only [tplA, List.append_assoc]
    refine not_inf_append (by decide) ?_ (noStraddle_left _ (by decide))
    refine not_inf_append (by decide) ?_ (noStraddle_left _ (by decide))
    refine not_inf_append (by decide) ?_ (noStraddle_left _ (by decide))
    refine not_inf_append (by decide) ?_ (noStraddle_left _ (by decide))
    refine not_inf_append (by decide) ?_ (noStraddle_left _ (by decide))
    refine not_inf_append (by decide) ?_ (noStraddle_left _ (by decide))
    refine not_inf_append (by decide) ?_ (noStraddle_left _ (by decide))
    refine not_inf_append (by decide) ?_ (noStraddle_left _ (by decide))
    refine not_inf_append (by decide) ?_ (noStraddle_left _ (by decide))
    refine not_inf_append (by decide) ?_ (noStraddle_left _ (by decide))
    refine not_inf_append (not_inf_digits 'L' (repr_digits _) (by decide) (by decide)) ?_
      (noStraddle_left_digits _ 'L' (repr_digits _) (by decide) (by decide))
    refine not_inf_append (by decide) ?_ (noStraddle_left _ (by decide))
    refine not_inf_append ht1 ?_ (noStraddle_right_head _ '<'
      (by rw [List.head?_append_of_ne_nil tplC (by decide)]; decide) (by decide))
    refine not_inf_append (by decide) ?_ (noStraddle_left _ (by decide))
    refine not_inf_append hs1 ?_ (noStraddle_right_head _ '\n'
      (by rw [List.head?_append_of_ne_nil tplD1 (by decide)]; decide) (by decide))
    refine not_inf_append (by decide) ?_ (noStraddle_left _ (by decide))
    refine not_inf_append (by decide) ?_ (noStraddle_left _ (by decide))
    refine not_inf_append (by decide) ?_ (noStraddle_left _ (by decide))
    refine not_inf_append hc1 ?_ (noStraddle_right_head _ '\n'
      (by rw [List.head?_append_of_ne_nil tplE (by decide)]; decide) (by decide))
    refine not_inf_append (by decide) ?_ (noStraddle_left _ (by decide))
    refine not_inf_append hu1 ?_ (noStraddle_right_head _ '\n'
      (by rw [List.head?_append_of_ne_nil tplF (by decide)]; decide) (by decide))
    refine not_inf_append (by decide) ?_ (noStraddle_left _ (by decide))
    refine not_inf_append (by decide) ?_ (noStraddle_left _ (by decide))
    refine not_inf_append hb1 ?_ (noStraddle_right_head _ '<'
      (by rw [List.head?_append_of_ne_nil tplPreClose (by decide)]; decide) (by decide))
    refine not_inf_append (by decide) ?_ (noStraddle_left _ (by decide))
    refine not_inf_append (by decide) ?_ (noStraddle_left _ (by decide))
    refine not_inf_append (by decide) ?_ (noStraddle_left _ (by decide))
    refine not_inf_append hr1 ?_ (noStraddle_right_head _ '"'
      (by rw [List.head?_append_of_ne_nil tplLink (by decide)]; decide) (by decide))
    exact not_inf_append (by decide) (by decide) (noStraddle_left _ (by decide))
  · rw [hhtml]
    simp only [tplA, List.append_assoc]
    refine not_inf_append (by decide) ?_ (noStraddle_left _ (by decide))
    refine not_inf_append (by decide) ?_ (noStraddle_left _ (by decide))
    refine not_inf_append (by decide) ?_ (noStraddle_left _ (by decide))
    refine not_inf_append (by decide) ?_ (noStraddle_left _ (by decide))
    refine not_inf_append (by decide) ?_ (noStraddle_left _ (by decide))
    refine not_inf_append (by decide) ?_ (noStraddle_left _ (by decide))
    refine not_inf_append (by decide) ?_ (noStraddle_left _ (by decide))
    refine not_inf_append (by decide) ?_ (noStraddle_left _ (by decide))
    refine not_inf_append (by decide) ?_ (noStraddle_left _ (by decide))
    refine not_inf_append (by decide) ?_ (noStraddle_left _ (by decide))
    refine not_inf_append (not_inf_digits 'A' (repr_digits _) (by decide) (by decide)) ?_
      (noStraddle_left_digits _ 'A' (repr_digits _) (by decide) (by decide))
    refine not_inf_append (by decide) ?_ (noStraddle_left _ (by decide))
    refine not_inf_append ht2 ?_ (noStraddle_right_head _ '<'
      (by rw [List.head?_append_of_ne_nil tplC (by decide)]; decide) (by decide))
    refine not_inf_append (by decide) ?_ (noStraddle_left _ (by decide))
    refine not_inf_append hs2 ?_ (noStraddle_right_head _ '\n'
      (by rw [List.head?_append_of_ne_nil tplD1 (by decide)]; decide) (by decide))
    refine not_inf_append (by decide) ?_ (noStraddle_left _ (by decide))
    refine not_inf_append (by decide) ?_ (noStraddle_left _ (by decide))
    refine not_inf_append (by decide) ?_ (noStraddle_left _ (by decide))
    refine not_inf_append hc2 ?_ (noStraddle_right_head _ '\n'
      (by rw [List.head?_append_of_ne_nil tplE (by decide)]; decide) (by decide))
    refine not_inf_append (by decide) ?_ (noStraddle_left _ (by decide))
    refine not_inf_append hu2 ?_ (noStraddle_right_head _ '\n'
      (by rw [List.head?_append_of_ne_nil tplF (by decide)]; decide) (by decide))
    refine not_inf_append (by decide) ?_ (noStraddle_left _ (by decide))
    refine not_inf_append (by decide) ?_ (noStraddle_left _ (by decide))
    refine not_inf_append hb2 ?_ (noStraddle_right_head _ '<'
      (by rw [List.head?_append_of_ne_nil tplPreClose (by decide)]; decide) (by decide))
    refine not_inf_append (by decide) ?_ (noStraddle_left _ (by decide))
    refine not_inf_append (by decide) ?_ (noStraddle_left _ (by decide))
    refine not_inf_append (by decide) ?_ (noStraddle_left _ (by decide))
    refine not_inf_append hr2 ?_ (noStraddle_right_head _ '"'
      (by rw [List.head?_append_of_ne_nil tplLink (by decide)]; decide) (by decide))
    exact not_inf_append (by decide) (by decide) (noStraddle_left _ (by decide))
  · exact ⟨tplA,
      tplB ++ issue.title ++ tplC ++ issue.state ++ tplD1 ++
        labelsDiv (joinSep ", ".data issue.labels) ++ tplD2 ++
        assigneesDiv (joinSep ", ".data issue.assignees) ++ tplD3 ++ issue.createdAt ++
        tplE ++ issue.updatedAt ++ tplF ++ tplPre ++ issue.body.getD default_body ++
        tplPreClose ++ tplG ++ tplAOpen ++ issue.url ++ tplLink ++ tplTail,
      by simp only [format_issue_html, List.append_assoc]⟩
  · exact ⟨tplA ++ (Nat.repr issue.number).data ++ tplB,
      tplC ++ issue.state ++ tplD1 ++ labelsDiv (joinSep ", ".data issue.labels) ++
        tplD2 ++ assigneesDiv (joinSep ", ".data issue.assignees) ++ tplD3 ++
        issue.createdAt ++ tplE ++ issue.updatedAt ++ tplF ++ tplPre ++
        issue.body.getD default_body ++ tplPreClose ++ tplG ++ tplAOpen ++ issue.url ++
        tplLink ++ tplTail,
      by simp only [format_issue_html, List.append_assoc]⟩
  · exact ⟨tplA ++ (Nat.repr issue.number).data ++ tplB ++ issue.title ++ tplC,
      tplD1 ++ labelsDiv (joinSep ", ".data issue.labels) ++ tplD2 ++
        assigneesDiv (joinSep ", ".data issue.assignees) ++ tplD3 ++ issue.createdAt ++
        tplE ++ issue.updatedAt ++ tplF ++ tplPre ++ issue.body.getD default_body ++
        tplPreClose ++ tplG ++ tplAOpen ++ issue.url ++ tplLink ++ tplTail,
      by simp only [format_issue_html, List.append_assoc]⟩
  · exact ⟨tplA ++ (Nat.repr issue.number).data ++ tplB ++ issue.title ++ tplC ++
      issue.state ++ tplD1 ++ labelsDiv (joinSep ", ".data issue.labels) ++ tplD2 ++
      assigneesDiv (joinSep ", ".data issue.assignees) ++ tplD3,
      tplE ++ issue.updatedAt ++ tplF ++ tplPre ++ issue.body.getD default_body ++
        tplPreClose ++ tplG ++ tplAOpen ++ issue.url ++ tplLink ++ tplTail,
      by simp only [format_issue_html, List.append_assoc]⟩
  · exact ⟨tplA ++ (Nat.repr issue.number).data ++ tplB ++ issue.title ++ tplC ++
      issue.state ++ tplD1 ++ labelsDiv (joinSep ", ".data issue.labels) ++ tplD2 ++
      assigneesDiv (joinSep ", ".data issue.assignees) ++ tplD3 ++ issue.createdAt ++
      tplE,
      tplF ++ tplPre ++ issue.body.getD default_body ++ tplPreClose ++ tplG ++
        tplAOpen ++ issue.url ++ tplLink ++ tplTail,
      by simp only [format_issue_html, List.append_assoc]⟩

/-- C7 witness: a concrete issue with no labels and no assignees renders with
no `Labels:` or `Assignees:` occurrence while keeping the other fields. -/
theorem C7_witness :
    ¬ ("Labels:".data <:+: format_issue_html
        ⟨7, "Fix crash".data, some "Steps".data, "U".data, "OPEN".data, [], [],
          "2024-01-02".data, "2024-01-03".data⟩) ∧
    ¬ ("Assignees:".data <:+: format_issue_html
        ⟨7, "Fix crash".data, some "Steps".data, "U".data, "OPEN".data, [], [],
          "2024-01-02".data, "2024-01-03".data⟩) ∧
    "Fix crash".data <:+: format_issue_html
        ⟨7, "Fix crash".data, some "Steps".data, "U".data, "OPEN".data, [], [],
          "2024-01-02".data, "2024-01-03".data⟩ :=
  have h := C7_omits_empty_lines
    ⟨7, "Fix crash".data, some "Steps".data, "U".data, "OPEN".data, [], [],
      "2024-01-02".data, "2024-01-03".data⟩ rfl rfl
    (by decide) (by decide) (by decide) (by decide) (by decide) (by decide)
    (by decide) (by decide) (by decide) (by decide) (by decide) (by decide)
  ⟨h.1, h.2.1, h.2.2.2.1⟩

/-- C8 witness: a concrete issue whose body appears verbatim in the rendered
document. -/
theorem C8_witness :
    (tplPre ++ "a < b & c".data ++ tplPreClose) <:+:
      format_issue_html
        ⟨7, "T".data, some "a < b & c".data, "U".data, "OPEN".data, [], [],
          "C".data, "D".data⟩ ∧
    (tplAOpen ++ "U".data ++ tplLink) <:+:
      format_issue_html
        ⟨7, "T".data, some "a < b & c".data, "U".data, "OPEN".data, [], [],
          "C".data, "D".data⟩ :=
  ⟨(C8_body_verbatim
      ⟨7, "T".data, some "a < b & c".data, "U".data, "OPEN".data, [], [],
        "C".data, "D".data⟩ "a < b & c".data rfl).1,
   (C8_body_verbatim
      ⟨7, "T".data, some "a < b & c".data, "U".data, "OPEN".data, [], [],
        "C".data, "D".data⟩ "a < b & c".data rfl).2.1⟩

end LogSmith
